import Mathlib

set_option autoImplicit false

deriving instance DecidableEq for Except

namespace BtpsSdk

/-!
Shallow embedding of the BTPS SDK core: identity and DNS resolver utilities
(src/unnamed/part_004), the server-response schema (src/unnamed/part_003),
the JSON trust store (src/src/core/trust/storage/JsonTrustStore.ts), and the
client retry/destroy behaviour whose implementation (btpsClient.ts) is not
part of the sources and is therefore modelled from the specification and the
unit tests (src/unnamed/part_001).

External effects (DNS queries, the file system) are passed in explicitly:
DNS resolution becomes a `DnsResult` argument, and the trust-store file
becomes a `Disk` value threaded through every operation.
-/

/-- JavaScript single-character `String.prototype.split` on character lists:
splitting the empty list yields one empty segment, every occurrence of the
separator starts a new segment. -/
def splitChars (sep : Char) : List Char → List (List Char)
  | [] => [[]]
  | c :: rest =>
    match splitChars sep rest with
    | [] => if c = sep then [[], []] else [[c]]
    | h :: t => if c = sep then [] :: h :: t else (c :: h) :: t

/-- JavaScript `s.split(sep)` for a single-character separator. -/
def jsSplit (sep : Char) (s : String) : List String :=
  (splitChars sep s.data).map (fun cs => String.mk cs)

/-- Whitespace for the purposes of `String.prototype.trim` (the characters
that occur in the repository's data: space, tab, CR, LF). -/
def isJsWhitespace (c : Char) : Bool :=
  c == ' ' || c == '\t' || c == '\n' || c == '\r'

/-- Trim whitespace from both ends of a character list. -/
def trimChars (l : List Char) : List Char :=
  ((l.dropWhile isJsWhitespace).reverse.dropWhile isJsWhitespace).reverse

/-- JavaScript `s.trim()`. -/
def jsTrim (s : String) : String :=
  String.mk (trimChars s.data)

/-- Parsed identity, from `ParsedIdentity` in the resolver's types. -/
structure ParsedIdentity where
  accountName : String
  domainName : String
  deriving DecidableEq, Repr

/-- Embeds `parseIdentity` (src/unnamed/part_004, lines 14-24): destructure
the first two segments of `identity.split` on the dollar character; return
null when either is missing or empty (JavaScript falsiness of `undefined`
and of the empty string). -/
def parseIdentity (identity : String) : Option ParsedIdentity :=
  match jsSplit '$' identity with
  | accountName :: domainName :: _ =>
    if accountName = "" || domainName = "" then none
    else some ⟨accountName, domainName⟩
  | _ => none

/-- Reading of claim C4's spec sentence, to be compared with `parseIdentity`:
the string splits on the single dollar character into exactly two non-empty
halves. -/
def specSplitsOnSingleDollar (s : String) : Bool :=
  match jsSplit '$' s with
  | [a, d] => a != "" && d != ""
  | _ => false

/-- Fuel-driven chunking used by `chunk64`; with fuel at least the list
length it cuts the list into consecutive chunks of up to 64 characters. -/
def chunk64Aux : Nat → List Char → List (List Char)
  | _, [] => []
  | 0, _ => []
  | fuel + 1, c :: rest => (c :: rest.take 63) :: chunk64Aux fuel (rest.drop 63)

/-- Chunks of up to 64 characters, embedding the regular expression
match of one to sixty-four characters applied globally (the base64 payloads
involved contain no newline, so the dot matches every character). -/
def chunk64 (l : List Char) : List (List Char) :=
  chunk64Aux l.length l

/-- Embeds `base64ToPem` (src/unnamed/part_004, lines 39-42): wrap the
base64 text in BEGIN and END PUBLIC KEY headers, body lines of at most 64
characters, joined by newlines. -/
def base64ToPem (base64 : String) : String :=
  String.intercalate "\n"
    ("-----BEGIN PUBLIC KEY-----"
      :: ((chunk64 base64.data).map (fun cs => String.mk cs)
          ++ ["-----END PUBLIC KEY-----"]))

/-- Concatenation of all strings of all returned TXT record sets:
`txtRecords.map(r => r.join('')).join('')`. -/
def flattenTxt (records : List (List String)) : String :=
  String.join (records.map (fun r => String.join r))

/-- The TXT pair parser shared by `getHostAndSelector` and
`getDnsIdentityParts`: split the flattened record on semicolons, trim each
segment, split it on the equals sign, trim the pieces, and keep only the
segments that split into exactly two pieces. -/
def parsePairs (flat : String) : List (String × String) :=
  (jsSplit ';' flat).filterMap (fun seg =>
    match (jsSplit '=' (jsTrim seg)).map jsTrim with
    | [k, v] => some (k, v)
    | _ => none)

/-- Property lookup after `Object.fromEntries`: of duplicate keys the last
pair wins. -/
def objGet (pairs : List (String × String)) (k : String) : Option String :=
  match pairs with
  | [] => none
  | p :: rest =>
    match objGet rest k with
    | some v => some v
    | none => if p.fst = k then some p.snd else none

/-- Modelled from the spec: the protocol version literal `1.0.0`
(`BTP_PROTOCOL_VERSION`, exported by the server module which is not among
the sources; the client test pins `getProtocolVersion()` to `1.0.0`). -/
def BTP_PROTOCOL_VERSION : String := "1.0.0"

/-- Modelled from the spec: the DNS namespace literal `_btps`
(`BTPS_NAME_SPACE`, exported by the server module which is not among the
sources). -/
def BTPS_NAME_SPACE : String := "_btps"

/-- DNS label queried by `getHostAndSelector`. -/
def hostDnsName (domainName : String) : String :=
  BTPS_NAME_SPACE ++ "." ++ domainName

/-- DNS label queried by `getDnsIdentityParts`. -/
def keyDnsName (selector accountName domainName : String) : String :=
  selector ++ "." ++ BTPS_NAME_SPACE ++ "." ++ accountName ++ "." ++ domainName

/-- Outcome of the external `dns.resolveTxt` call, passed in explicitly. -/
inductive DnsResult where
  | resolved (records : List (List String))
  | failed (message : String)
  deriving DecidableEq, Repr

/-- Embeds `getHostAndSelector` (src/unnamed/part_004, lines 44-81):
parse the identity, flatten and parse the TXT records, require the protocol
version and truthy `u` and `s` values; a DNS failure is rethrown as an
error, every parse shortfall returns undefined. -/
def getHostAndSelector (identity : String) (dns : DnsResult) :
    Except String (Option (String × String)) :=
  match parseIdentity identity with
  | none => .ok none
  | some pid =>
    match dns with
    | .failed e =>
      .error ("DNS resolution failed for " ++ hostDnsName pid.domainName ++ ": " ++ e)
    | .resolved records =>
      if records.length = 0 then .ok none
      else
        let parts := parsePairs (flattenTxt records)
        if objGet parts "v" ≠ some BTP_PROTOCOL_VERSION then .ok none
        else
          match objGet parts "u", objGet parts "s" with
          | some u, some s =>
            if u = "" || s = "" then .ok none else .ok (some (u, s))
          | some _, none => .ok none
          | none, _ => .ok none

/-- Embeds `getDnsIdentityParts` (src/unnamed/part_004, lines 83-139)
specialised to `type = 'pem'`: parse the identity, flatten and parse the TXT
records, and return `base64ToPem(parts['p'])`. When the `p` property is
absent — the pair parser dropped it — the JavaScript call throws a
TypeError inside the try block, which the catch clause rethrows as a DNS
resolution failure; a DNS failure is rethrown the same way. -/
def getDnsIdentityPartsPem (identity selector : String) (dns : DnsResult) :
    Except String (Option String) :=
  match parseIdentity identity with
  | none => .ok none
  | some pid =>
    match dns with
    | .failed e =>
      .error ("DNS resolution failed for " ++ pid.domainName ++ ": " ++ e)
    | .resolved records =>
      if records.length = 0 then .ok none
      else
        let parts := parsePairs (flattenTxt records)
        match objGet parts "p" with
        | some p => .ok (some (base64ToPem p))
        | none =>
          .error ("DNS resolution failed for " ++ pid.domainName ++ ": TypeError")

/-- Discriminator for results of fallible operations. -/
def exceptIsError {ε α : Type} : Except ε α → Bool
  | .error _ => true
  | .ok _ => false

/-!
Trust store (src/src/core/trust/storage/JsonTrustStore.ts).

The in-memory `Map` is an insertion-ordered association list; the trust file
is a `Disk` value carrying the parsed record array and its modification
time. Time-dependent pieces (lock acquisition, the tmp write, the rename,
the fresh mtime) are summarised by a `WriteOutcome` argument; the debounced
scheduling of `writeToFile` is represented by the dirty flag it tests.
The file is taken to exist (lazy `init` creates it on first use otherwise)
and to parse; a corrupt file is a terminal error outside these claims.
-/

/-- Trust record status, from the spec's closed enumeration. -/
inductive TrustStatus where
  | requested
  | accepted
  | revoked
  | expired
  deriving DecidableEq, Repr

/-- Modelled from the spec: `BTPTrustRecord` (core/trust/types.js is not
among the sources) with the fields named in the data model: id, senderId,
receiverId, status, issuedAt, optional decidedAt and expiresAt, optional
policy map. -/
structure BTPTrustRecord where
  id : String
  senderId : String
  receiverId : String
  status : TrustStatus
  issuedAt : String
  decidedAt : Option String
  expiresAt : Option String
  policy : Option (List (String × String))
  deriving DecidableEq, Repr

/-- A record as passed to `create`: the same fields without the id. -/
structure TrustRecordNoId where
  senderId : String
  receiverId : String
  status : TrustStatus
  issuedAt : String
  decidedAt : Option String
  expiresAt : Option String
  policy : Option (List (String × String))
  deriving DecidableEq, Repr

/-- The record `{ id, ...record }` built by `create`. -/
def TrustRecordNoId.withId (id : String) (r : TrustRecordNoId) : BTPTrustRecord :=
  ⟨id, r.senderId, r.receiverId, r.status, r.issuedAt, r.decidedAt, r.expiresAt, r.policy⟩

/-- Rolling character hash, the fixed algorithm behind `computeTrustId`. -/
def strHash (s : String) : Nat :=
  s.data.foldl (fun h c => (h * 31 + c.toNat) % 4294967296) 7

/-- Modelled from the spec: `computeTrustId` (core/trust/index.js is not
among the sources) — the deterministic id is a fixed hash of
`senderId || "→" || receiverId`, the same pair always yielding the same
id. -/
def computeTrustId (senderId receiverId : String) : String :=
  toString (strHash (senderId ++ "→" ++ receiverId))

/-- JavaScript `Map.prototype.get`: the value stored under the key. -/
def mapGet {α : Type} (m : List (String × α)) (k : String) : Option α :=
  match m with
  | [] => none
  | (k0, v) :: t => if k0 = k then some v else mapGet t k

/-- JavaScript `Map.prototype.set`: replace in place when the key exists,
append otherwise (insertion order preserved). -/
def mapSet {α : Type} (m : List (String × α)) (k : String) (v : α) :
    List (String × α) :=
  match m with
  | [] => [(k, v)]
  | (k0, v0) :: t => if k0 = k then (k0, v) :: t else (k0, v0) :: mapSet t k v

/-- JavaScript `[...map.values()]` in insertion order. -/
def mapValues {α : Type} (m : List (String × α)) : List α :=
  m.map (fun p => p.snd)

/-- The record map loaded from a parsed file: `map.set(r.id, r)` for each
record in file order. -/
def loadMap (records : List BTPTrustRecord) : List (String × BTPTrustRecord) :=
  records.foldl (fun m r => mapSet m r.id r) []

/-- In-memory state of the JSON trust store. -/
structure StoreState where
  recordMap : List (String × BTPTrustRecord)
  dirty : Bool
  lastChangedMtime : Nat
  deriving DecidableEq, Repr

/-- The trust file as the store observes it: parsed records and mtime. -/
structure Disk where
  records : List BTPTrustRecord
  mtime : Nat
  deriving DecidableEq, Repr

/-- Outcome of one attempt to lock, write, rename and stat the file: either
it all succeeds and the file carries a fresh mtime, or some step throws. -/
inductive WriteOutcome where
  | success (newMtime : Nat)
  | failure (message : String)
  deriving DecidableEq, Repr

/-- Result of a store operation: the thrown-or-returned value together with
the state and disk it leaves behind. -/
abbrev OpRes (α : Type) := Except String α × StoreState × Disk

/-- Embeds `writeToFile` (JsonTrustStore.ts, lines 89-112): return at once
unless dirty; clear the dirty flag; then lock, write the map values to the
tmp file, rename atomically and record the fresh mtime — or propagate the
failure of any of those steps, the dirty flag staying cleared. -/
def writeToFile (st : StoreState) (d : Disk) (o : WriteOutcome) : OpRes Unit :=
  if st.dirty = false then (.ok (), st, d)
  else
    match o with
    | .success m =>
      (.ok (), { st with dirty := false, lastChangedMtime := m },
        { records := mapValues st.recordMap, mtime := m })
    | .failure e => (.error e, { st with dirty := false }, d)

/-- Embeds `init` (JsonTrustStore.ts, lines 70-84) on an existing, parsing
file: clear the map and set `r.id ↦ r` for every record on disk. -/
def initFromDisk (st : StoreState) (d : Disk) : StoreState :=
  { st with recordMap := loadMap d.records }

/-- Embeds `flushAndReload` (JsonTrustStore.ts, lines 190-194): write, then
clear the map and re-init from disk; a write failure propagates before the
reload happens. -/
def flushAndReload (st : StoreState) (d : Disk) (o : WriteOutcome) : OpRes Unit :=
  match writeToFile st d o with
  | (.error e, st1, d1) => (.error e, st1, d1)
  | (.ok _, st1, d1) =>
    (.ok (), initFromDisk { st1 with recordMap := [] } d1, d1)

/-- Embeds `reloadIfChanged` (JsonTrustStore.ts, lines 57-65): stat the
file; when its mtime differs from the last recorded one, flush-and-reload
and then record the observed (pre-flush) mtime. -/
def reloadIfChanged (st : StoreState) (d : Disk) (o : WriteOutcome) : OpRes Unit :=
  let mtime := d.mtime
  if mtime = st.lastChangedMtime then (.ok (), st, d)
  else
    match flushAndReload st d o with
    | (.error e, st1, d1) => (.error e, st1, d1)
    | (.ok _, st1, d1) => (.ok (), { st1 with lastChangedMtime := mtime }, d1)

/-- Embeds `getById` (JsonTrustStore.ts, lines 117-121): lazy init when the
map is empty, reload on external change, then look the key up. -/
def getById (st : StoreState) (d : Disk) (o : WriteOutcome) (computedId : String) :
    OpRes (Option BTPTrustRecord) :=
  let st0 := if st.recordMap.isEmpty then initFromDisk st d else st
  match reloadIfChanged st0 d o with
  | (.error e, st1, d1) => (.error e, st1, d1)
  | (.ok _, st1, d1) => (.ok (mapGet st1.recordMap computedId), st1, d1)

/-- The optional receiver filter of `getAll`. -/
def filterByReceiver (receiverId : Option String) (l : List BTPTrustRecord) :
    List BTPTrustRecord :=
  match receiverId with
  | none => l
  | some rid => l.filter (fun r => r.receiverId == rid)

/-- Embeds `getAll` (JsonTrustStore.ts, lines 173-178): lazy init when the
map is empty, reload on external change, then return the values, optionally
filtered by receiver. -/
def getAll (st : StoreState) (d : Disk) (o : WriteOutcome) (receiverId : Option String) :
    OpRes (List BTPTrustRecord) :=
  let st0 := if st.recordMap.isEmpty then initFromDisk st d else st
  match reloadIfChanged st0 d o with
  | (.error e, st1, d1) => (.error e, st1, d1)
  | (.ok _, st1, d1) => (.ok (filterByReceiver receiverId (mapValues st1.recordMap)), st1, d1)

/-- Embeds `create` (JsonTrustStore.ts, lines 126-142) for a record given
without an id field (the guard on an `id` property holds by construction):
the id is the explicit `computedId` when supplied, otherwise
`computeTrustId(senderId, receiverId)`; an existing record under that id is
an already-exists error; otherwise `{ id, ...record }` is stored under the
id, the store is marked dirty (the debounced write being scheduled), and
the new record is returned. -/
def create (st : StoreState) (d : Disk) (o : WriteOutcome)
    (record : TrustRecordNoId) (computedId : Option String) : OpRes BTPTrustRecord :=
  let id := computedId.getD (computeTrustId record.senderId record.receiverId)
  match getById st d o id with
  | (.error e, st1, d1) => (.error e, st1, d1)
  | (.ok (some _), st1, d1) =>
    (.error ("Trust record already exists for "
      ++ record.senderId ++ " → " ++ record.receiverId), st1, d1)
  | (.ok none, st1, d1) =>
    let newRecord := record.withId id
    (.ok newRecord,
      { st1 with recordMap := mapSet st1.recordMap id newRecord, dirty := true }, d1)

/-- A `Partial` trust-record patch: a field is overridden exactly when the
corresponding property is present. -/
structure TrustPatch where
  id : Option String
  senderId : Option String
  receiverId : Option String
  status : Option TrustStatus
  issuedAt : Option String
  decidedAt : Option (Option String)
  expiresAt : Option (Option String)
  policy : Option (Option (List (String × String)))
  deriving DecidableEq, Repr

/-- The spread merge `{ ...record, ...patch }`: every property present in
the patch overrides, every other property keeps the record's value. -/
def mergePatch (r : BTPTrustRecord) (p : TrustPatch) : BTPTrustRecord where
  id := p.id.getD r.id
  senderId := p.senderId.getD r.senderId
  receiverId := p.receiverId.getD r.receiverId
  status := p.status.getD r.status
  issuedAt := p.issuedAt.getD r.issuedAt
  decidedAt := p.decidedAt.getD r.decidedAt
  expiresAt := p.expiresAt.getD r.expiresAt
  policy := p.policy.getD r.policy

/-- Embeds `update` (JsonTrustStore.ts, lines 147-157): look the key up via
`getById`; not-found is an error; otherwise store `{ ...record, ...patch }`
under the same key, mark the store dirty and return the merged record. -/
def update (st : StoreState) (d : Disk) (o : WriteOutcome)
    (computedId : String) (patch : TrustPatch) : OpRes BTPTrustRecord :=
  match getById st d o computedId with
  | (.error e, st1, d1) => (.error e, st1, d1)
  | (.ok none, st1, d1) => (.error "No trust record found", st1, d1)
  | (.ok (some record), st1, d1) =>
    let updated := mergePatch record patch
    (.ok updated,
      { st1 with recordMap := mapSet st1.recordMap computedId updated, dirty := true }, d1)

/-!
Server-response schema (src/unnamed/part_003). The candidate is typed: the
closed `type` enum, the status shape and the document union are enforced by
the Lean types, mirroring the zod object checks that cannot fail on a typed
value; the `version` regex, the issuedAt datetime check, the signedBy
identity check and the three cross-field refinements are computed. zod runs
the `superRefine` refinements only once the base object parses, and the
refinements add one issue per offending field path.
-/

/-- All-digit non-empty run, one `\d+` atom of the version pattern. -/
def isDigits (l : List Char) : Bool :=
  !l.isEmpty && l.all (fun c => c.isDigit)

/-- The regular expression `^\d+\.\d+\.\d+$` of the version field: exactly
three dot-separated non-empty digit runs. -/
def isSemverTriple (s : String) : Bool :=
  match jsSplit '.' s with
  | [a, b, c] => isDigits a.data && isDigits b.data && isDigits c.data
  | _ => false

/-- Consume exactly `n` digit characters. -/
def takeDigits : Nat → List Char → Option (List Char)
  | 0, rest => some rest
  | n + 1, c :: rest => if c.isDigit then takeDigits n rest else none
  | _ + 1, [] => none

/-- Consume one expected character. -/
def expectChar (ch : Char) : List Char → Option (List Char)
  | c :: rest => if c = ch then some rest else none
  | [] => none

/-- After a decimal point: one or more digits then a final Z. -/
def fracDigitsThenZ (seen : Bool) : List Char → Bool
  | [] => false
  | c :: rest =>
    if c = 'Z' then seen && rest.isEmpty
    else if c.isDigit then fracDigitsThenZ true rest
    else false

/-- The datetime check of `z.string().datetime()` with default options:
`^\d{4}-\d{2}-\d{2}T\d{2}:\d{2}:\d{2}(\.\d+)?Z$` shaped — four-digit date,
dashes, T, three two-digit time fields with colons, an optional fractional
part, a final Z. -/
def isZodDatetime (s : String) : Bool :=
  match takeDigits 4 s.data >>= expectChar '-' >>= takeDigits 2 >>= expectChar '-'
      >>= takeDigits 2 >>= expectChar 'T' >>= takeDigits 2 >>= expectChar ':'
      >>= takeDigits 2 >>= expectChar ':' >>= takeDigits 2 with
  | none => false
  | some rest =>
    match rest with
    | ['Z'] => true
    | c :: more => if c = '.' then fracDigitsThenZ false more else false
    | [] => false

/-- The closed response `type` enum. -/
inductive BtpsResponseType where
  | btpsResponse
  | btpsError
  deriving DecidableEq, Repr

/-- The `BTPStatus` shape: ok, code, optional message. -/
structure BtpStatus where
  ok : Bool
  code : Int
  message : Option String
  deriving DecidableEq, Repr

/-- A signature envelope (shape from the crypto types: algorithm sha256,
value, fingerprint). -/
structure BtpSignature where
  value : String
  fingerprint : String
  deriving DecidableEq, Repr

/-- An encryption envelope (shape from the crypto types: algorithm
aes-256-cbc, encryptedKey, iv, mode). -/
structure BtpEncryption where
  encryptedKey : String
  iv : String
  deriving DecidableEq, Repr

/-- The document union of the response schema: either a string (the
ciphertext form) or a structured response document; the structured side is
typed by a parameter since its own schemas live outside these sources. -/
inductive BtpsDocument (α : Type) where
  | docStr (s : String)
  | docObj (d : α)
  deriving DecidableEq, Repr

/-- Whether `typeof document === 'string'`: a present string document. -/
def docIsString {α : Type} : Option (BtpsDocument α) → Bool
  | some (.docStr _) => true
  | _ => false

/-- A candidate value for `BtpServerResponseSchema`. -/
structure BtpServerResponseInput (α : Type) where
  version : String
  status : BtpStatus
  id : String
  issuedAt : String
  type : BtpsResponseType
  reqId : Option String
  document : Option (BtpsDocument α)
  signature : Option BtpSignature
  encryption : Option BtpEncryption
  signedBy : Option String
  selector : Option String
  deriving DecidableEq, Repr

/-- Issues of the base object parse of `BtpServerResponseSchema`: the
version regex, the issuedAt datetime, and — identitySchema being modelled
from the spec's identity invariant — a present signedBy must parse as an
identity. -/
def baseIssues {α : Type} (c : BtpServerResponseInput α) : List (List String) :=
  (if isSemverTriple c.version then [] else [["version"]])
    ++ (if isZodDatetime c.issuedAt then [] else [["issuedAt"]])
    ++ (match c.signedBy with
        | some sb => if (parseIdentity sb).isSome then [] else [["signedBy"]]
        | none => [])

/-- Embeds the `superRefine` of `BtpServerResponseSchema`
(src/unnamed/part_003, lines 84-112): with a signature present, a missing
signedBy and a missing selector each add an issue at their path; with
encryption present, a non-string document adds an issue at the document
path. -/
def refineIssues {α : Type} (c : BtpServerResponseInput α) : List (List String) :=
  (if c.signature.isSome && c.signedBy.isNone then [["signedBy"]] else [])
    ++ (if c.signature.isSome && c.selector.isNone then [["selector"]] else [])
    ++ (if c.encryption.isSome && !docIsString c.document then [["document"]] else [])

/-- Embeds `BtpServerResponseSchema` (src/unnamed/part_003, lines 68-112)
on a typed candidate: the base object issues, and — only when the base
object parses — the refinement issues; validation accepts exactly the
candidates with no issue. -/
def validateServerResponse {α : Type} (c : BtpServerResponseInput α) :
    List (List String) :=
  match baseIssues c with
  | [] => refineIssues c
  | issues => issues

/-!
Client connector (btpsClient.ts is not among the sources; its retry and
destroy behaviour is modelled from spec sections 4.6, 4.8, 5, 7 and 8 and
pinned where possible by the unit tests of src/unnamed/part_001).
-/

/-- An error observed at the connector boundary: either a JavaScript
SyntaxError instance from parsing a wire line, or a generic error
identified by its message. -/
inductive ClientError where
  | malformedJson (message : String)
  | generic (message : String)
  deriving DecidableEq, Repr

/-- The terminal error messages of `isNonRetryableError`, as enumerated by
its unit tests: invalid identity, invalid btpAddress, invalid hostname,
unsupported protocol, signature verification failed, destroyed. -/
def terminalMessages : List String :=
  ["invalid identity", "invalid btpAddress", "invalid hostname",
   "unsupported protocol", "signature verification failed", "destroyed"]

/-- Modelled from the spec: `isNonRetryableError` of the missing
btpsClient.ts — a SyntaxError from the wire and every message of a
terminal class are non-retryable, everything else is transient. -/
def isNonRetryableError : ClientError → Bool
  | .malformedJson _ => true
  | .generic m => terminalMessages.contains m

/-- The retry-relevant slice of the client's state. -/
structure ClientRetryState where
  shouldRetry : Bool
  destroyed : Bool
  retries : Nat
  maxRetries : Nat
  retryDelayMs : Nat
  deriving DecidableEq, Repr

/-- The `BTPSRetryInfo` record. -/
structure BTPSRetryInfo where
  willRetry : Bool
  retriesLeft : Nat
  nextDelayMs : Nat
  deriving DecidableEq, Repr

/-- Modelled from the spec: `getRetryInfo` of the missing btpsClient.ts.
Retry happens exactly when the client should retry, is not destroyed, has
retries strictly below the maximum, and the optional error is not terminal
(spec section 4.6). The remaining-retries count follows the unit test that
pins retries 0 of maxRetries 2 to one retry left: the maximum minus the
attempts minus one, floored at zero (natural subtraction). -/
def getRetryInfo (st : ClientRetryState) (error : Option ClientError) : BTPSRetryInfo :=
  { willRetry :=
      st.shouldRetry && !st.destroyed && decide (st.retries < st.maxRetries)
        && !(match error with
             | some e => isNonRetryableError e
             | none => false),
    retriesLeft := st.maxRetries - st.retries - 1,
    nextDelayMs := st.retryDelayMs }

/-- The lifecycle slice of the client's state: the destroyed flag, the
socket, the backpressure queue and the registered subscribers. -/
structure ClientState where
  destroyed : Bool
  socketAlive : Bool
  backpressureQueue : List String
  listeners : List Nat
  deriving DecidableEq, Repr

/-- Events observable on the client's emitter. -/
inductive ClientEvent where
  | connected
  | message
  | messageSent
  | errored
  | ended
  | closed
  deriving DecidableEq, Repr

/-- Modelled from the spec: `destroy()` of the missing btpsClient.ts —
mark destroyed, tear the socket down, clear the queue and remove every
subscriber (spec section 4.8; the unit tests pin the destroyed flag, the
socket teardown and the empty listener table, and that a second call does
not throw). -/
def destroy (_st : ClientState) : ClientState :=
  { destroyed := true, socketAlive := false, backpressureQueue := [], listeners := [] }

/-- Modelled from the spec: event delivery through the emitter — each
registered subscriber receives the event, and nothing is delivered once the
client is destroyed (spec sections 4.8 and 5). -/
def emitToSubscribers (st : ClientState) (e : ClientEvent) : List (Nat × ClientEvent) :=
  if st.destroyed then [] else st.listeners.map (fun l => (l, e))

/-- Modelled from the spec: `connect` of the missing btpsClient.ts,
reduced to the observations the claims need — on a destroyed client it is
a no-op that does not throw; otherwise it parses the recipient, emits an
error event on an invalid identity and otherwise dials and emits
`connected` (spec sections 4.8 and 7: the connector never throws to the
caller, it emits). -/
def connect (st : ClientState) (recipient : String) :
    Except String (ClientState × List (Nat × ClientEvent)) :=
  if st.destroyed then .ok (st, [])
  else
    match parseIdentity recipient with
    | none => .ok (st, emitToSubscribers st .errored)
    | some _ => .ok ({ st with socketAlive := true }, emitToSubscribers st .connected)

/-!
Auxiliary definitions and concrete fixtures used by the proofs below.
-/

/-- Join chunks with a separator, the inverse of `splitChars`. -/
def joinWith (sep : Char) : List (List Char) → List Char
  | [] => []
  | [x] => x
  | x :: y :: t => x ++ sep :: joinWith sep (y :: t)

/-- Concrete response candidate used by witnesses. -/
def sampleResponse : BtpServerResponseInput Unit :=
  ⟨"1.0.0", ⟨true, 200, none⟩, "r1", "2023-01-01T00:00:00Z", .btpsResponse, none,
    some (.docStr "ct"), some ⟨"sig", "fp"⟩, some ⟨"ek", "iv"⟩,
    some "alice$a.com", some "btps1"⟩

/-- Concrete trust record used by witnesses. -/
def sampleRecord : BTPTrustRecord :=
  ⟨"id1", "alice$a.com", "bob$b.com", .accepted, "2023-01-01T00:00:00Z", none, none, none⟩

/-- Concrete id-less trust record used by witnesses. -/
def sampleRecordNoId : TrustRecordNoId :=
  ⟨"carol$c.com", "bob$b.com", .requested, "2023-01-02T00:00:00Z", none, none, none⟩

/-- Concrete store state used by witnesses. -/
def sampleState : StoreState := ⟨[("id1", sampleRecord)], false, 5⟩

/-- Concrete disk contents used by witnesses. -/
def sampleDisk : Disk := ⟨[sampleRecord], 5⟩

/-- Concrete update patch used by witnesses. -/
def samplePatch : TrustPatch :=
  ⟨some "idX", none, none, some .revoked, none, none, none, none⟩

/-!
Helper lemmas.
-/

theorem splitChars_ne_nil (sep : Char) (l : List Char) : splitChars sep l ≠ [] := by
  cases l with
  | nil => simp [splitChars]
  | cons c rest =>
    rcases hr : splitChars sep rest with _ | ⟨h0, t⟩
    · by_cases hc : c = sep <;> simp [splitChars, hr, hc]
    · by_cases hc : c = sep <;> simp [splitChars, hr, hc]

theorem joinWith_splitChars (sep : Char) (l : List Char) :
    joinWith sep (splitChars sep l) = l := by
  induction l with
  | nil => simp [splitChars, joinWith]
  | cons c rest ih =>
    rcases hr : splitChars sep rest with _ | ⟨h0, t⟩
    · exact absurd hr (splitChars_ne_nil sep rest)
    · rw [hr] at ih
      by_cases hc : c = sep
      · simp [splitChars, hr, hc, joinWith, ih]
      · cases t with
        | nil =>
          simp only [joinWith] at ih
          simp [splitChars, hr, hc, joinWith, ih]
        | cons y t2 =>
          simp only [joinWith] at ih
          simp [splitChars, hr, hc, joinWith, ih]

theorem splitChars_two (sep : Char) (l x y : List Char)
    (h : splitChars sep l = [x, y]) : l = x ++ sep :: y := by
  have := joinWith_splitChars sep l
  rw [h] at this
  simpa [joinWith] using this.symm

theorem mk_append_mk (l1 l2 : List Char) :
    String.mk l1 ++ String.mk l2 = String.mk (l1 ++ l2) := rfl

theorem jsSplit_two_recompose (sep : Char) (s a d : String)
    (h : jsSplit sep s = [a, d]) : a ++ String.mk [sep] ++ d = s := by
  rcases hsc : splitChars sep s.data with _ | ⟨x, _ | ⟨y, t⟩⟩ <;>
    rw [jsSplit, hsc] at h <;> simp at h
  obtain ⟨hx, hy, ht⟩ := h
  subst ht
  have hl : s.data = x ++ sep :: y := splitChars_two sep s.data x y hsc
  have : a ++ String.mk [sep] ++ d = String.mk (x ++ sep :: y) := by
    rw [← hx, ← hy, mk_append_mk, mk_append_mk]
    exact congrArg String.mk (by simp)
  rw [this, ← hl]

theorem stringNe_of_head (a b : String) (ha : a.data.head? = some 'D')
    (hb : b.data.head? ≠ some 'D') : a ≠ b :=
  fun h => hb (h ▸ ha)

theorem dns_error_message_retryable (msg : String) (hmsg : msg.data.head? = some 'D') :
    isNonRetryableError (ClientError.generic msg) = false := by
  simp only [isNonRetryableError, terminalMessages, List.contains_cons, List.contains_nil,
    Bool.or_eq_false_iff, beq_eq_false_iff_ne]
  refine ⟨?_, ?_, ?_, ?_, ?_, ?_, trivial⟩ <;>
    exact stringNe_of_head msg _ hmsg (by decide)

theorem headOfDnsMessage (x : String) :
    ("DNS resolution failed for " ++ x).data.head? = some 'D' := rfl

theorem mapGet_mapSet_self {α : Type} (m : List (String × α)) (k : String) (v : α) :
    mapGet (mapSet m k v) k = some v := by
  induction m with
  | nil => simp [mapSet, mapGet]
  | cons p t ih =>
    obtain ⟨k0, v0⟩ := p
    by_cases hk : k0 = k <;> simp [mapSet, mapGet, hk, ih]

theorem mapSet_keys_of_get {α : Type} (m : List (String × α)) (k : String) (v r : α)
    (h : mapGet m k = some r) :
    (mapSet m k v).map Prod.fst = m.map Prod.fst := by
  induction m with
  | nil => simp [mapGet] at h
  | cons p t ih =>
    obtain ⟨k0, v0⟩ := p
    by_cases hk : k0 = k
    · simp [mapSet, hk]
    · simp only [mapGet, if_neg hk] at h
      simp [mapSet, hk, ih h]

set_option maxHeartbeats 1000000

/-!
Claim theorems.
-/

/-- Claim C1, counterexample: at retries 0 and maxRetries 2 (the unit
test's configuration) `getRetryInfo` reports one retry left while the
claim's formula max(0, maxRetries − retries) gives two, so the claim's
retriesLeft clause is false; willRetry is true there as the test expects. -/
theorem c1_counterexample :
    (getRetryInfo ⟨true, false, 0, 2, 10⟩ none).retriesLeft = 1 ∧
    (getRetryInfo ⟨true, false, 0, 2, 10⟩ none).retriesLeft ≠ max 0 (2 - 0) ∧
    (getRetryInfo ⟨true, false, 0, 2, 10⟩ none).willRetry = true := by
  decide

/-- Claim C1, amended: `getRetryInfo` returns willRetry true exactly when
shouldRetry holds, the client is not destroyed, retries is strictly below
maxRetries and the optional error is not of a terminal class; the returned
retriesLeft equals max(0, maxRetries − retries − 1) (natural subtraction),
and nextDelayMs is the configured base delay. -/
theorem c1_getRetryInfo_amended (st : ClientRetryState) (error : Option ClientError) :
    ((getRetryInfo st error).willRetry = true ↔
      st.shouldRetry = true ∧ st.destroyed = false ∧ st.retries < st.maxRetries ∧
        (∀ e, error = some e → isNonRetryableError e = false)) ∧
    (getRetryInfo st error).retriesLeft = st.maxRetries - st.retries - 1 ∧
    (getRetryInfo st error).nextDelayMs = st.retryDelayMs := by
  refine ⟨?_, rfl, rfl⟩
  cases error with
  | none => simp [getRetryInfo, and_assoc]
  | some e => simp [getRetryInfo, and_assoc]

/-- Claim C1, witness: a client with one retry done out of three, given a
transient socket error, will retry. -/
theorem c1_witness :
    (getRetryInfo ⟨true, false, 1, 3, 10⟩ (some (ClientError.generic "socket error"))).willRetry
      = true :=
  ((c1_getRetryInfo_amended ⟨true, false, 1, 3, 10⟩
      (some (ClientError.generic "socket error"))).1).mpr
    ⟨rfl, rfl, by decide, by intro e he; cases he; decide⟩

/-- Claim C2: on a dirty store whose disk write fails, `writeToFile`
propagates the error but leaves the dirty flag false — the flag is cleared
before the write and never set again on failure — and the file is
unchanged, so the pending change will not be re-flushed later, contrary to
the claim and to the spec's failure model. -/
theorem c2_writeToFile_failure (st : StoreState) (d : Disk) (e : String) :
    (writeToFile { st with dirty := true } d (.failure e)).1 = Except.error e ∧
    (writeToFile { st with dirty := true } d (.failure e)).2.1.dirty = false ∧
    (writeToFile { st with dirty := true } d (.failure e)).2.2 = d := by
  refine ⟨rfl, rfl, rfl⟩

/-- Claim C3, counterexample: with a published `p` value whose base64
padding contains an equals sign, the pair parser drops the `p` pair (its
segment splits into four parts, not two), so `getDnsIdentityParts` with
which = pem throws a DNS-resolution error instead of returning the PEM the
claim promises. -/
theorem c3_counterexample :
    getDnsIdentityPartsPem "alice$example.com" "btps1"
        (.resolved [["v=1.0.0; k=rsa; p=AAAA=="]]) =
      .error "DNS resolution failed for example.com: TypeError" ∧
    getDnsIdentityPartsPem "alice$example.com" "btps1"
        (.resolved [["v=1.0.0; k=rsa; p=AAAA=="]]) ≠
      .ok (some (base64ToPem "AAAA==")) := by
  decide

/-- Claim C3, amended: whenever the parsed TXT pairs carry a `p` value —
which requires the base64 text to contain no equals sign — resolveKey with
which = pem returns that value wrapped into PEM form (BEGIN and END PUBLIC
KEY headers around 64-character lines). -/
theorem c3_resolveKeyPem_amended (identity selector : String) (pid : ParsedIdentity)
    (records : List (List String)) (b64 : String)
    (hid : parseIdentity identity = some pid)
    (hrec : records.length ≠ 0)
    (hp : objGet (parsePairs (flattenTxt records)) "p" = some b64) :
    getDnsIdentityPartsPem identity selector (.resolved records) =
      .ok (some (base64ToPem b64)) := by
  unfold getDnsIdentityPartsPem
  rw [hid]
  simp [hrec, hp]

/-- Claim C3, witness: an unpadded `p` value is returned in PEM form. -/
theorem c3_witness :
    getDnsIdentityPartsPem "alice$example.com" "btps1" (.resolved [["v=1.0.0; p=AAAA"]]) =
      .ok (some (base64ToPem "AAAA")) :=
  c3_resolveKeyPem_amended "alice$example.com" "btps1" ⟨"alice", "example.com"⟩
    [["v=1.0.0; p=AAAA"]] "AAAA" (by decide) (by decide) (by decide)

/-- Claim C4, counterexample: the string with two dollar signs `a$b$c`
does not split on a single dollar into two halves, yet `parseIdentity`
accepts it, returning the first two segments, which do not recompose to
the original string. -/
theorem c4_counterexample :
    parseIdentity "a$b$c" = some ⟨"a", "b"⟩ ∧
    specSplitsOnSingleDollar "a$b$c" = false ∧
    ("a" : String) ++ "$" ++ "b" ≠ "a$b$c" := by
  decide

/-- Claim C4, amended: `parseIdentity` returns a parsed identity exactly
when the first two dollar-separated segments of the input exist and are
non-empty (so strings without a dollar or with an empty first or second
segment yield none, but extra segments after the second are ignored); the
parsed halves recompose to the original string whenever the input contains
a single dollar. -/
theorem c4_parseIdentity_amended (s : String) :
    ((parseIdentity s).isSome = true ↔
      ∃ a d rest, jsSplit '$' s = a :: d :: rest ∧ a ≠ "" ∧ d ≠ "") ∧
    (specSplitsOnSingleDollar s = true →
      ∀ pid, parseIdentity s = some pid →
        pid.accountName ++ "$" ++ pid.domainName = s) := by
  constructor
  · constructor
    · intro h
      rcases hs : jsSplit '$' s with _ | ⟨a, _ | ⟨d, rest⟩⟩ <;>
        unfold parseIdentity at h <;> rw [hs] at h
      · simp at h
      · simp at h
      · by_cases ha : a = ""
        · simp [ha] at h
        · by_cases hd : d = ""
          · simp [ha, hd] at h
          · exact ⟨a, d, rest, rfl, ha, hd⟩
    · rintro ⟨a, d, rest, hs, ha, hd⟩
      unfold parseIdentity
      rw [hs]
      simp [ha, hd]
  · intro hspec pid hpid
    rcases hs : jsSplit '$' s with _ | ⟨a, _ | ⟨d, rest⟩⟩ <;>
      unfold specSplitsOnSingleDollar at hspec <;> rw [hs] at hspec
    · simp at hspec
    · simp at hspec
    · cases rest with
      | cons r rs => simp at hspec
      | nil =>
        simp only [bne_iff_ne, Bool.and_eq_true, decide_eq_true_eq] at hspec
        obtain ⟨ha, hd⟩ := hspec
        unfold parseIdentity at hpid
        rw [hs] at hpid
        simp [ha, hd] at hpid
        subst hpid
        simpa using jsSplit_two_recompose '$' s a d hs

/-- Claim C4, witness: a well-formed identity parses and recomposes. -/
theorem c4_witness :
    parseIdentity "a$b" = some ⟨"a", "b"⟩ ∧ ("a" : String) ++ "$" ++ "b" = "a$b" :=
  ⟨by decide, (c4_parseIdentity_amended "a$b").2 (by decide) ⟨"a", "b"⟩ (by decide)⟩

/-- Claim C5: for a parseable identity, `getHostAndSelector` rethrows
every DNS failure as an error whose message is not of a terminal class
(hence retryable at the connector), never throws on resolved records, and
returns a host and selector exactly when the parsed TXT pairs carry `v`
equal to the protocol version literal and non-empty `u` and `s` values;
otherwise it returns none. -/
theorem c5_resolveHost (identity : String) (pid : ParsedIdentity)
    (hid : parseIdentity identity = some pid) :
    (∀ e, exceptIsError (getHostAndSelector identity (.failed e)) = true) ∧
    (∀ records, exceptIsError (getHostAndSelector identity (.resolved records)) = false) ∧
    (∀ records u s,
      getHostAndSelector identity (.resolved records) = .ok (some (u, s)) ↔
        objGet (parsePairs (flattenTxt records)) "v" = some BTP_PROTOCOL_VERSION ∧
        objGet (parsePairs (flattenTxt records)) "u" = some u ∧ u ≠ "" ∧
        objGet (parsePairs (flattenTxt records)) "s" = some s ∧ s ≠ "") ∧
    (∀ e, isNonRetryableError (ClientError.generic
        ("DNS resolution failed for " ++ hostDnsName pid.domainName ++ ": " ++ e)) = false) := by
  refine ⟨?_, ?_, ?_, ?_⟩
  · intro e
    unfold getHostAndSelector
    rw [hid]
    rfl
  · intro records
    unfold getHostAndSelector
    rw [hid]
    by_cases h0 : records.length = 0
    · simp [h0, exceptIsError]
    · simp only [h0, if_false, if_neg h0]
      by_cases hv : objGet (parsePairs (flattenTxt records)) "v" ≠ some BTP_PROTOCOL_VERSION
      · simp [hv, exceptIsError]
      · simp only [if_neg hv]
        rcases hu : objGet (parsePairs (flattenTxt records)) "u" with _ | u0 <;>
          rcases hs : objGet (parsePairs (flattenTxt records)) "s" with _ | s0 <;>
            simp [exceptIsError]
        by_cases he : u0 = "" ∨ s0 = "" <;> simp [he, exceptIsError]
  · intro records u s
    constructor
    · intro h
      unfold getHostAndSelector at h
      simp only [hid] at h
      by_cases h0 : records.length = 0
      · rw [if_pos h0] at h
        simp at h
      · rw [if_neg h0] at h
        by_cases hv : objGet (parsePairs (flattenTxt records)) "v" ≠ some BTP_PROTOCOL_VERSION
        · rw [if_pos hv] at h
          simp at h
        · rw [if_neg hv] at h
          push_neg at hv
          rcases hu : objGet (parsePairs (flattenTxt records)) "u" with _ | u0 <;>
            rcases hs2 : objGet (parsePairs (flattenTxt records)) "s" with _ | s0 <;>
              simp_all
          split at h <;> simp_all
    · rintro ⟨hv, hu, hune, hs2, hsne⟩
      have h0 : records.length ≠ 0 := by
        intro h0
        rw [List.length_eq_zero] at h0
        subst h0
        exact absurd hv (by decide)
      unfold getHostAndSelector
      simp only [hid]
      rw [if_neg h0]
      simp [hv, hu, hs2, hune, hsne]
  · intro e
    exact dns_error_message_retryable _ (by
      have : ("DNS resolution failed for " ++ hostDnsName pid.domainName ++ ": " ++ e) =
          "DNS resolution failed for " ++ (hostDnsName pid.domainName ++ ": " ++ e) := by
        simp [String.append_assoc]
      rw [this]
      exact headOfDnsMessage _)

/-- Claim C5, witness: a complete record resolves to its host and
selector, and a DNS failure surfaces as an error. -/
theorem c5_witness :
    getHostAndSelector "alice$example.com"
        (.resolved [["v=1.0.0; u=btps.example.com:3443; s=btps1"]]) =
      .ok (some ("btps.example.com:3443", "btps1")) ∧
    exceptIsError (getHostAndSelector "alice$example.com" (.failed "timeout")) = true := by
  constructor
  · exact ((c5_resolveHost "alice$example.com" ⟨"alice", "example.com"⟩ (by decide)).2.2.1
      [["v=1.0.0; u=btps.example.com:3443; s=btps1"]] "btps.example.com:3443" "btps1").mpr
      ⟨by decide, by decide, by decide, by decide, by decide⟩
  · exact (c5_resolveHost "alice$example.com" ⟨"alice", "example.com"⟩ (by decide)).1 "timeout"

/-- Claim C6: server-response validation accepts a candidate only if the
version matches the semantic-version pattern, a present signature comes
with signedBy and selector, and a present encryption comes with a string
document; a failing version check is reported at the version path, and —
the refinements running once the base object parses — each violated
refinement is reported at the offending field path. -/
theorem c6_responseSchema {α : Type} (c : BtpServerResponseInput α) :
    (validateServerResponse c = [] →
      isSemverTriple c.version = true ∧
      (c.signature.isSome = true → c.signedBy.isSome = true ∧ c.selector.isSome = true) ∧
      (c.encryption.isSome = true → docIsString c.document = true)) ∧
    (isSemverTriple c.version = false → ["version"] ∈ validateServerResponse c) ∧
    (baseIssues c = [] → c.signature.isSome = true → c.signedBy = none →
      ["signedBy"] ∈ validateServerResponse c) ∧
    (baseIssues c = [] → c.signature.isSome = true → c.selector = none →
      ["selector"] ∈ validateServerResponse c) ∧
    (baseIssues c = [] → c.encryption.isSome = true → docIsString c.document = false →
      ["document"] ∈ validateServerResponse c) := by
  refine ⟨?_, ?_, ?_, ?_, ?_⟩
  · intro hv
    rcases hb : baseIssues c with _ | ⟨i, is⟩
    · simp only [validateServerResponse, hb] at hv
      refine ⟨?_, ?_, ?_⟩
      · by_cases hver : isSemverTriple c.version = true
        · exact hver
        · exfalso
          simp [baseIssues, hver] at hb
      · intro hsig
        constructor
        · cases hsb : c.signedBy with
          | some v => rfl
          | none =>
            exfalso
            simp [refineIssues, hsig, hsb] at hv
        · cases hsel : c.selector with
          | some v => rfl
          | none =>
            exfalso
            simp [refineIssues, hsig, hsel] at hv
      · intro henc
        by_cases hdoc : docIsString c.document = true
        · exact hdoc
        · exfalso
          simp [refineIssues, henc, hdoc] at hv
    · simp only [validateServerResponse, hb] at hv
      simp at hv
  · intro hver
    rcases hb : baseIssues c with _ | ⟨i, is⟩
    · exfalso
      simp [baseIssues, hver] at hb
    · have hmem : ["version"] ∈ baseIssues c := by
        simp [baseIssues, hver]
      simp only [validateServerResponse, hb]
      rw [hb] at hmem
      exact hmem
  · intro hb0 hsig hsb
    simp only [validateServerResponse, hb0]
    simp [refineIssues, hsig, hsb]
  · intro hb0 hsig hsel
    simp only [validateServerResponse, hb0]
    simp [refineIssues, hsig, hsel]
  · intro hb0 henc hdoc
    simp only [validateServerResponse, hb0]
    simp [refineIssues, henc, hdoc]

/-- Claim C6, witness: a fully-formed signed and encrypted response with a
string document satisfies the three invariants, extracted from its
acceptance by validation. -/
theorem c6_witness :
    isSemverTriple sampleResponse.version = true ∧
    (sampleResponse.signature.isSome = true →
      sampleResponse.signedBy.isSome = true ∧ sampleResponse.selector.isSome = true) ∧
    (sampleResponse.encryption.isSome = true → docIsString sampleResponse.document = true) :=
  (c6_responseSchema sampleResponse).1 (by decide)

/-- Claim C7: on an initialized store with no external file change,
`create` derives the id as the explicit one when supplied and otherwise as
the deterministic hash of the sender and receiver pair; it fails with an
already-exists error when the id is already mapped, and otherwise stores
and returns the record carrying that id, marking the store dirty. -/
theorem c7_create (st : StoreState) (d : Disk) (o : WriteOutcome)
    (record : TrustRecordNoId) (cid : Option String)
    (h1 : st.recordMap ≠ []) (h2 : d.mtime = st.lastChangedMtime) :
    ((∃ r0, mapGet st.recordMap
        (cid.getD (computeTrustId record.senderId record.receiverId)) = some r0) →
      exceptIsError (create st d o record cid).1 = true) ∧
    (mapGet st.recordMap (cid.getD (computeTrustId record.senderId record.receiverId)) = none →
      (create st d o record cid).1 =
          .ok (record.withId (cid.getD (computeTrustId record.senderId record.receiverId))) ∧
      mapGet (create st d o record cid).2.1.recordMap
          (cid.getD (computeTrustId record.senderId record.receiverId)) =
        some (record.withId (cid.getD (computeTrustId record.senderId record.receiverId))) ∧
      (create st d o record cid).2.1.dirty = true) ∧
    (cid = none →
      cid.getD (computeTrustId record.senderId record.receiverId) =
        computeTrustId record.senderId record.receiverId) := by
  have hne : st.recordMap.isEmpty = false := by
    cases hm : st.recordMap with
    | nil => exact absurd hm h1
    | cons a t => rfl
  refine ⟨?_, ?_, fun hc => by cases hc; rfl⟩
  · rintro ⟨r0, hr⟩
    unfold create getById reloadIfChanged
    simp [hne, h2, hr, exceptIsError]
  · intro hnone
    unfold create getById reloadIfChanged
    simp [hne, h2, hnone, mapGet_mapSet_self]

/-- Claim C7, witness: creating under a fresh explicit id stores and
returns the record with that id and marks the store dirty. -/
theorem c7_witness :
    (create sampleState sampleDisk (.success 6) sampleRecordNoId (some "id2")).1 =
      .ok (sampleRecordNoId.withId "id2") ∧
    (create sampleState sampleDisk (.success 6) sampleRecordNoId (some "id2")).2.1.dirty
      = true := by
  have h := (c7_create sampleState sampleDisk (.success 6) sampleRecordNoId (some "id2")
    (by decide) (by decide)).2.1 (by decide)
  exact ⟨h.1, h.2.2⟩

/-- Claim C8: both read-only operations stat the file first, and whenever
the observed mtime differs from the last recorded one they flush pending
writes and reload, so afterwards the in-memory map is exactly the load of
the final on-disk records — which, when no write was pending, are the
externally modified records unchanged — and the returned value is read
from that reloaded map. -/
theorem c8_read_reload (st : StoreState) (d : Disk) (m : Nat) (id : String)
    (rid : Option String) (hm : d.mtime ≠ st.lastChangedMtime) :
    ((getById st d (.success m) id).1 =
        .ok (mapGet (getById st d (.success m) id).2.1.recordMap id) ∧
      (getById st d (.success m) id).2.1.recordMap =
        loadMap (getById st d (.success m) id).2.2.records ∧
      (st.dirty = false → (getById st d (.success m) id).2.2 = d)) ∧
    ((getAll st d (.success m) rid).1 =
        .ok (filterByReceiver rid (mapValues (getAll st d (.success m) rid).2.1.recordMap)) ∧
      (getAll st d (.success m) rid).2.1.recordMap =
        loadMap (getAll st d (.success m) rid).2.2.records ∧
      (st.dirty = false → (getAll st d (.success m) rid).2.2 = d)) := by
  cases hD : st.dirty <;> by_cases hE : st.recordMap.isEmpty <;>
    simp [getById, getAll, reloadIfChanged, flushAndReload, writeToFile, initFromDisk,
      hm, hD, hE]

/-- Claim C8, witness: after an external touch of the file (mtime 7
against a recorded 5), `getById` answers from a map equal to the load of
the on-disk records. -/
theorem c8_witness :
    (getById sampleState ⟨[sampleRecord], 7⟩ (.success 8) "id1").1 =
      .ok (mapGet (getById sampleState ⟨[sampleRecord], 7⟩ (.success 8) "id1").2.1.recordMap
        "id1") ∧
    (getById sampleState ⟨[sampleRecord], 7⟩ (.success 8) "id1").2.1.recordMap =
      loadMap (getById sampleState ⟨[sampleRecord], 7⟩ (.success 8) "id1").2.2.records := by
  have h := (c8_read_reload sampleState ⟨[sampleRecord], 7⟩ 8 "id1" none (by decide)).1
  exact ⟨h.1, h.2.1⟩

/-- Claim C9: after `destroy` no event reaches any subscriber (all
listeners are removed, the socket is torn down, the queue cleared),
destroying twice equals destroying once, and `connect` on a destroyed
client is a no-op that returns without throwing and emits nothing. -/
theorem c9_destroy (st : ClientState) (e : ClientEvent) (recipient : String) :
    emitToSubscribers (destroy st) e = [] ∧
    destroy (destroy st) = destroy st ∧
    connect (destroy st) recipient = .ok (destroy st, []) := by
  refine ⟨rfl, rfl, rfl⟩

/-- Claim C10: on an initialized store with no external file change,
`update` stores the spread merge of the stored record and the patch under
the original key and returns it; every field absent from the patch keeps
the record's value, the map's keys are unchanged, and a patch carrying a
different id leaves the record retrievable under the old key while its id
field holds the patched value. -/
theorem c10_update (st : StoreState) (d : Disk) (o : WriteOutcome)
    (id : String) (r : BTPTrustRecord) (p : TrustPatch)
    (h1 : st.recordMap ≠ []) (h2 : d.mtime = st.lastChangedMtime)
    (h3 : mapGet st.recordMap id = some r) :
    (update st d o id p).1 = .ok (mergePatch r p) ∧
    (update st d o id p).2.1.recordMap = mapSet st.recordMap id (mergePatch r p) ∧
    mapGet (update st d o id p).2.1.recordMap id = some (mergePatch r p) ∧
    (update st d o id p).2.1.recordMap.map Prod.fst = st.recordMap.map Prod.fst ∧
    (update st d o id p).2.2 = d ∧
    (update st d o id p).2.1.dirty = true ∧
    (∀ j, p.id = some j → (mergePatch r p).id = j) ∧
    (p.id = none → (mergePatch r p).id = r.id) ∧
    (p.senderId = none → (mergePatch r p).senderId = r.senderId) ∧
    (p.receiverId = none → (mergePatch r p).receiverId = r.receiverId) ∧
    (p.status = none → (mergePatch r p).status = r.status) ∧
    (p.issuedAt = none → (mergePatch r p).issuedAt = r.issuedAt) ∧
    (p.decidedAt = none → (mergePatch r p).decidedAt = r.decidedAt) ∧
    (p.expiresAt = none → (mergePatch r p).expiresAt = r.expiresAt) ∧
    (p.policy = none → (mergePatch r p).policy = r.policy) := by
  have hne : st.recordMap.isEmpty = false := by
    cases hm : st.recordMap with
    | nil => exact absurd hm h1
    | cons a t => rfl
  refine ⟨?_, ?_, ?_, ?_, ?_, ?_, ?_, ?_, ?_, ?_, ?_, ?_, ?_, ?_, ?_⟩
  · unfold update getById reloadIfChanged
    simp [hne, h2, h3]
  · unfold update getById reloadIfChanged
    simp [hne, h2, h3]
  · unfold update getById reloadIfChanged
    simp [hne, h2, h3, mapGet_mapSet_self]
  · unfold update getById reloadIfChanged
    simp [hne, h2, h3, mapSet_keys_of_get st.recordMap id (mergePatch r p) r h3]
  · unfold update getById reloadIfChanged
    simp [hne, h2, h3]
  · unfold update getById reloadIfChanged
    simp [hne, h2, h3]
  · intro j hj
    simp [mergePatch, hj]
  · intro hj
    simp [mergePatch, hj]
  · intro hj
    simp [mergePatch, hj]
  · intro hj
    simp [mergePatch, hj]
  · intro hj
    simp [mergePatch, hj]
  · intro hj
    simp [mergePatch, hj]
  · intro hj
    simp [mergePatch, hj]
  · intro hj
    simp [mergePatch, hj]
  · intro hj
    simp [mergePatch, hj]

/-- Claim C10, witness: updating record id1 with a patch that renames the
id to idX and revokes the status stores the merge under key id1, the id
field holding idX while the untouched senderId is preserved. -/
theorem c10_witness :
    (update sampleState sampleDisk (.success 6) "id1" samplePatch).1 =
      .ok (mergePatch sampleRecord samplePatch) ∧
    mapGet (update sampleState sampleDisk (.success 6) "id1" samplePatch).2.1.recordMap "id1" =
      some (mergePatch sampleRecord samplePatch) ∧
    (mergePatch sampleRecord samplePatch).id = "idX" ∧
    (mergePatch sampleRecord samplePatch).senderId = sampleRecord.senderId := by
  have h := c10_update sampleState sampleDisk (.success 6) "id1" sampleRecord samplePatch
    (by decide) (by decide) (by decide)
  exact ⟨h.1, h.2.2.1, h.2.2.2.2.2.2.1 "idX" rfl, h.2.2.2.2.2.2.2.2.1 rfl⟩

end BtpsSdk
